import Mathlib

/-!
Shallow embedding of the `abao929/spotify` repository.

The repository has two pipelines:

* `album_mosaic/sort_by_color.py`: a montage (grid compositor) class and a
  dominant-color extractor;
* `playlist_tracker/track_new_songs.py` and `track_new_songs_oauth.py`: a
  playlist tracker with a date filter, a persisted last-run cursor, batched
  playlist writes, and OAuth token caching.

Pure functions are translated directly; stateful code (files, HTTP) is given
explicit state / response parameters.  External library calls (Python
`datetime` arithmetic, `cv2.resize`, `sklearn` KMeans, `numpy` slice
assignment, `requests`) are modelled by their documented behaviour at the
call sites, as noted on each definition.
-/

/-- Python `datetime.datetime` value as used by the playlist tracker:
the seven components that `isoformat` serializes and that comparison
inspects. -/
structure PyDateTime where
  year : Nat
  month : Nat
  day : Nat
  hour : Nat
  minute : Nat
  second : Nat
  microsecond : Nat
deriving DecidableEq

/-- Python `datetime` strict comparison `a < b`: lexicographic on the
components, as CPython compares datetimes field by field. -/
def dtLt (a b : PyDateTime) : Bool :=
  if a.year ≠ b.year then decide (a.year < b.year)
  else if a.month ≠ b.month then decide (a.month < b.month)
  else if a.day ≠ b.day then decide (a.day < b.day)
  else if a.hour ≠ b.hour then decide (a.hour < b.hour)
  else if a.minute ≠ b.minute then decide (a.minute < b.minute)
  else if a.second ≠ b.second then decide (a.second < b.second)
  else decide (a.microsecond < b.microsecond)

/-- One entry of the `tracks` list returned for a playlist
(`track_new_songs.py` and `track_new_songs_oauth.py` use the same shape).
`track` is `none` exactly when the JSON `track` field is null; the track
object itself is abstracted to its URI string.  `added_at` holds the
timestamp that `datetime.datetime.strptime(item['added_at'],
'%Y-%m-%dT%H:%M:%SZ')` (Python stdlib) produces for the entry. -/
structure TrackItem where
  track : Option String
  added_at : PyDateTime
deriving DecidableEq

/-- `filter_songs_by_date(tracks, since_date)` from
`playlist_tracker/track_new_songs.py` (lines 67-77) and the identical
function in `track_new_songs_oauth.py` (lines 183-193): walk the list in
order, skip entries whose `track` is null, and keep exactly those with
`added_at > since_date`. -/
def filter_songs_by_date : List TrackItem → PyDateTime → List TrackItem
  | [], _ => []
  | item :: rest, since_date =>
    if item.track = none then
      filter_songs_by_date rest since_date
    else if dtLt since_date item.added_at then
      item :: filter_songs_by_date rest since_date
    else
      filter_songs_by_date rest since_date

/-- The three-track playlist of end-to-end scenario 2 of the spec:
tracks added at 2024-01-01, 2024-06-01 and 2024-12-01. -/
def scenarioTracks : List TrackItem :=
  [ { track := some "track1", added_at := ⟨2024, 1, 1, 0, 0, 0, 0⟩ },
    { track := some "track2", added_at := ⟨2024, 6, 1, 0, 0, 0, 0⟩ },
    { track := some "track3", added_at := ⟨2024, 12, 1, 0, 0, 0, 0⟩ } ]

/-- Python `range(0, stop, step)` for a positive `step`: the indices
`0, step, 2*step, ...` below `stop`. -/
def pyRange (stop step : Nat) : List Nat :=
  (List.range ((stop + step - 1) / step)).map (fun k => k * step)

/-- `add_tracks_to_playlist(playlist_id, track_uris, access_token)` from
`track_new_songs_oauth.py` (lines 259-283; `track_new_songs.py` lines
108-128 is the same loop without the success counter): walk the URI list
in steps of 100, and for each step POST the slice
`track_uris[i:i + 100]`.  The HTTP layer is modelled by `post`, which maps
a batch to whether the response status is 2xx.  The result records, in
order, the batches carried by the issued POST requests, together with the
`total_added` counter. -/
def add_tracks_to_playlist (track_uris : List String)
    (post : List String → Bool) : List (List String) × Nat :=
  (pyRange track_uris.length 100).foldl
    (fun acc i =>
      let batch := (track_uris.drop i).take 100
      (acc.1 ++ [batch], if post batch then acc.2 + batch.length else acc.2))
    ([], 0)

/-- The batches `track_uris[i:i + 100]` for `i in range(0, len, 100)`,
in order: the slices carried by the POST requests of
`add_tracks_to_playlist`. -/
def uriBatches (l : List String) : List (List String) :=
  (pyRange l.length 100).map (fun i => (l.drop i).take 100)

/-- The 250 track URIs of end-to-end scenario 3 of the spec. -/
def scenarioUris : List String := List.replicate 250 "spotify:track:x"

/-- The ASCII digit character for a value below 10, as produced by Python
decimal formatting. -/
def digitChar (n : Nat) : Char := Char.ofNat (48 + n)

/-- Numeric value of an ASCII digit character. -/
def charVal (c : Char) : Nat := c.toNat - 48

/-- Two-digit zero-padded decimal rendering. -/
def pad2 (n : Nat) : List Char := [digitChar (n / 10), digitChar (n % 10)]

/-- Four-digit zero-padded decimal rendering. -/
def pad4 (n : Nat) : List Char :=
  [digitChar (n / 1000), digitChar (n / 100 % 10), digitChar (n / 10 % 10),
   digitChar (n % 10)]

/-- Six-digit zero-padded decimal rendering. -/
def pad6 (n : Nat) : List Char :=
  [digitChar (n / 100000), digitChar (n / 10000 % 10),
   digitChar (n / 1000 % 10), digitChar (n / 100 % 10),
   digitChar (n / 10 % 10), digitChar (n % 10)]

/-- `datetime.isoformat()` (Python stdlib, as called by
`save_last_run_date`): `YYYY-MM-DDTHH:MM:SS`, with `.ffffff` appended
exactly when the microsecond field is non-zero. -/
def isoformat (t : PyDateTime) : List Char :=
  pad4 t.year ++ '-' :: (pad2 t.month ++ '-' :: (pad2 t.day ++ 'T' ::
    (pad2 t.hour ++ ':' :: (pad2 t.minute ++ ':' :: (pad2 t.second ++
      (if t.microsecond = 0 then [] else '.' :: pad6 t.microsecond))))))

/-- `datetime.fromisoformat` (Python stdlib, as called by
`load_last_run_date`), on the two shapes `isoformat` emits; `none` models
the `ValueError` raised on any other string. -/
def fromisoformat : List Char → Option PyDateTime
  | y1 :: y2 :: y3 :: y4 :: sep1 :: mo1 :: mo2 :: sep2 :: d1 :: d2 :: sep3 ::
      h1 :: h2 :: sep4 :: mi1 :: mi2 :: sep5 :: s1 :: s2 :: rest =>
    if sep1 = '-' ∧ sep2 = '-' ∧ sep3 = 'T' ∧ sep4 = ':' ∧ sep5 = ':' then
      let base : PyDateTime :=
        { year := 1000 * charVal y1 + 100 * charVal y2 + 10 * charVal y3 +
            charVal y4,
          month := 10 * charVal mo1 + charVal mo2,
          day := 10 * charVal d1 + charVal d2,
          hour := 10 * charVal h1 + charVal h2,
          minute := 10 * charVal mi1 + charVal mi2,
          second := 10 * charVal s1 + charVal s2,
          microsecond := 0 }
      match rest with
      | [] => some base
      | '.' :: u1 :: u2 :: u3 :: u4 :: u5 :: u6 :: [] =>
        some { base with microsecond := (100000 * charVal u1 +
                 10000 * charVal u2 + 1000 * charVal u3 +
                 100 * charVal u4 + 10 * charVal u5 + charVal u6) }
      | _ => none
    else none
  | _ => none

/-- `save_last_run_date()` from `track_new_songs.py` (lines 79-92 region)
and `track_new_songs_oauth.py`: overwrite `last_run.json` with
`{"last_run": datetime.now().isoformat()}`.  The file is modelled by the
serialized value of its single `last_run` field (`json.dump`/`json.load`
round-trip strings unchanged), and `datetime.now()` by the explicit `now`
argument. -/
def save_last_run_date (now : PyDateTime) (_file : Option (List Char)) :
    Option (List Char) :=
  some (isoformat now)

/-- `load_last_run_date()` from `track_new_songs_oauth.py` (lines 195-207)
and `track_new_songs.py`: if `last_run.json` exists, parse its `last_run`
field with `datetime.fromisoformat`; otherwise fall back to a default
(`now - 30 days`, passed here as `fallback`). -/
def load_last_run_date (file : Option (List Char)) (fallback : PyDateTime) :
    Option PyDateTime :=
  match file with
  | some content => fromisoformat content
  | none => some fallback

/-- HTTP response for the client-credentials token POST of
`get_access_token` (`track_new_songs.py` lines 16-27): the status code
plus the `access_token` field of the JSON body. -/
structure TokenHttpResponse where
  status : Nat
  access_token : String
deriving DecidableEq

/-- `get_access_token(client_id, client_secret)` from `track_new_songs.py`
lines 16-27: return the token when the status code is in
`range(200, 299)`, raise otherwise (the raise is modelled as
`Except.error`; the interpolated status code is dropped from the
message). -/
def get_access_token (r : TokenHttpResponse) : Except String String :=
  if 200 ≤ r.status ∧ r.status < 299 then Except.ok r.access_token
  else Except.error "Failed to get access token"

/-- HTTP response for the playlist GET of `get_playlist_with_dates`
(first page; the pagination loop over `next` links swallows its own
failures and does not affect the error routing modelled here). -/
structure PlaylistHttpResponse where
  status : Nat
  tracks : List TrackItem
  name : String
deriving DecidableEq

/-- `get_playlist_with_dates(playlist_id, access_token)` from
`track_new_songs.py` lines 38-65: raise unless the status is exactly 200,
else return the tracks with the playlist name. -/
def get_playlist_with_dates (r : PlaylistHttpResponse) :
    Except String (List TrackItem × String) :=
  if r.status = 200 then Except.ok (r.tracks, r.name)
  else Except.error "Failed to get playlist"

/-- The contribution of a single playlist to the log data of `main`
(`track_new_songs.py` lines 179-207): nothing when its read raises or
when the date filter keeps no track, otherwise a log entry, abstracted
here to the playlist name and the kept tracks. -/
def processOne (playlistResp : String → PlaylistHttpResponse)
    (last_run : PyDateTime) (link : String) :
    Option (String × List TrackItem) :=
  match get_playlist_with_dates (playlistResp link) with
  | Except.error _ => none
  | Except.ok (tracks, name) =>
    let new_tracks := filter_songs_by_date tracks last_run
    if new_tracks = [] then none else some (name, new_tracks)

/-- The per-playlist loop of `main` (`track_new_songs.py` lines 179-207):
each playlist runs inside its own try/except, so a failed read is caught,
logged and contributes nothing, and the loop continues. -/
def processPlaylists (playlistResp : String → PlaylistHttpResponse)
    (last_run : PyDateTime) (links : List String) :
    List (String × List TrackItem) :=
  links.foldl
    (fun acc link =>
      match get_playlist_with_dates (playlistResp link) with
      | Except.error _ => acc
      | Except.ok (tracks, name) =>
        let new_tracks := filter_songs_by_date tracks last_run
        if new_tracks = [] then acc else acc ++ [(name, new_tracks)])
    []

/-- `main()` of `track_new_songs.py` (the name `main` is reserved in
Lean): `get_access_token` is called before the playlist loop and outside
any try/except, so its exception propagates and aborts the whole run;
only then does the per-playlist loop run. -/
def main_run (tokenResp : TokenHttpResponse)
    (playlistResp : String → PlaylistHttpResponse) (last_run : PyDateTime)
    (links : List String) :
    Except String (List (String × List TrackItem)) :=
  match get_access_token tokenResp with
  | Except.error e => Except.error e
  | Except.ok _ => Except.ok (processPlaylists playlistResp last_run links)

/-- A playlist response function for the C6 statements: the playlist
`"bad"` answers 500, every other playlist answers 200 with the scenario
tracks. -/
def c6Resp : String → PlaylistHttpResponse := fun link =>
  if link = "bad" then ⟨500, [], "Broken"⟩ else ⟨200, scenarioTracks, "Good"⟩

/-- The cached token file `spotify_token_cache.json` of
`track_new_songs_oauth.py`.  `expires_at` is the ISO timestamp modelled
as seconds since the epoch, so the Python datetime comparison against
`expires_at - timedelta(minutes=5)` becomes a `Nat` comparison against
`expires_at - 300`. -/
structure TokenCacheData where
  access_token : String
  refresh_token : Option String
  expires_at : Nat
deriving DecidableEq

/-- HTTP response of the refresh-token POST of `refresh_access_token`. -/
structure RefreshResponse where
  status : Nat
  access_token : String
  expires_in : Nat
deriving DecidableEq

/-- `refresh_access_token(client_id, client_secret, refresh_token)` from
`track_new_songs_oauth.py` lines 119-150: on a non-200 response delete the
cache file and return `None`; on success return the fresh token and
rewrite the cache, keeping the same refresh token.  The second component
is the cache file after the call. -/
def refresh_access_token (resp : RefreshResponse) (now : Nat)
    (refresh_token : String) : Option String × Option TokenCacheData :=
  if resp.status ≠ 200 then (none, none)
  else
    (some resp.access_token,
     some { access_token := resp.access_token,
            refresh_token := some refresh_token,
            expires_at := now + resp.expires_in })

/-- How one call to `get_user_token` obtains its result: the still-valid
cached token, the outcome of a refresh attempt (`none` when the refresh
failed), or entry into the interactive authorization flow (browser plus
pasted redirect URL). -/
inductive TokenOutcome where
  | cachedToken (t : String)
  | refreshed (t : Option String)
  | interactiveAuth
deriving DecidableEq

/-- `get_user_token(client_id, client_secret, redirect_uri)` from
`track_new_songs_oauth.py` lines 44-117, up to the start of the
interactive flow: with a cache present, a token valid for more than 5
more minutes is returned as is; otherwise a present refresh token is
exercised (and its result returned as the token); in every other case the
interactive authorization flow runs (its browser/network I/O is outside
this model).  The second component is the cache file after the call. -/
def get_user_token (now : Nat) (refreshResp : RefreshResponse)
    (cache : Option TokenCacheData) :
    TokenOutcome × Option TokenCacheData :=
  match cache with
  | some token_data =>
    if now < token_data.expires_at - 300 then
      (TokenOutcome.cachedToken token_data.access_token, cache)
    else
      match token_data.refresh_token with
      | some rt =>
        let r := refresh_access_token refreshResp now rt
        (TokenOutcome.refreshed r.1, r.2)
      | none => (TokenOutcome.interactiveAuth, cache)
  | none => (TokenOutcome.interactiveAuth, cache)

/-- A pixel of the 3-channel color space that `get_dominant_color`
clusters over (the image is reshaped to an `N × 3` pixel list). -/
abbrev Pixel := Nat × Nat × Nat

/-- The fold behind `Counter(labels).most_common(1)`: scan the labels
keeping the current best label, replacing it only on a strictly larger
count (on ties `most_common` keeps the earlier label, as its sort by
count is stable). -/
def pickMax {α : Type} (cnt : α → Nat) : Option α → List α → Option α
  | acc, [] => acc
  | none, x :: xs => pickMax cnt (some x) xs
  | some b, x :: xs => pickMax cnt (some (if cnt b < cnt x then x else b)) xs

/-- `Counter(labels).most_common(1)[0][0]`: a label of maximal
multiplicity in `labels` (`none` only for an empty label list). -/
def mostCommonLabel {α : Type} [DecidableEq α] (labels : List α) :
    Option α :=
  pickMax (fun x => labels.count x) none labels

/-- The pixel list `get_dominant_color` actually clusters: the image
itself, or its downsampling when an `image_processing_size` was given
(`cv2.resize` with `INTER_AREA` is external; it is the abstract `resize`
function here). -/
def resizedImage (resize : Option (List Pixel → List Pixel))
    (image : List Pixel) : List Pixel :=
  match resize with
  | some f => f image
  | none => image

/-- `get_dominant_color(image, k, image_processing_size)` from
`album_mosaic/sort_by_color.py` lines 79-112: optionally downsample,
reshape to the pixel list, cluster the pixels into `k` clusters and
return the centroid of the cluster with the most pixels.  The `sklearn`
KMeans calls are external and enter as abstract parameters:
`fit_predict` assigns one of the `k` labels to each pixel and
`cluster_centers` is the `cluster_centers_` array mapping each label to
its centroid color. -/
def get_dominant_color (k : Nat) (image : List Pixel)
    (resize : Option (List Pixel → List Pixel))
    (fit_predict : List Pixel → List (Fin k))
    (cluster_centers : Fin k → Pixel) : Option Pixel :=
  match mostCommonLabel (fit_predict (resizedImage resize image)) with
  | some l => some (cluster_centers l)
  | none => none

/-- A 3-pixel test image for the C8 witness: two dark pixels, one
bright. -/
def c8Image : List Pixel := [(0, 0, 0), (0, 0, 0), (9, 9, 9)]

/-- A concrete 2-cluster labelling for the C8 witness: pixels are
labelled by thresholding their first channel. -/
def c8Fit : List Pixel → List (Fin 2) :=
  fun ps => ps.map (fun p => if 4 < p.1 then 1 else 0)

/-- Concrete centroids for the C8 witness. -/
def c8Centers : Fin 2 → Pixel := fun l => if l = 0 then (0, 0, 0) else (9, 9, 9)

/-- Python ceiling division `-(-n // p)` (as written in
`results_montage.__init__`) for a positive divisor. -/
def ceilDiv (n p : Nat) : Nat := (n + p - 1) / p

/-- State of a `results_montage` object (`album_mosaic/sort_by_color.py`
lines 12-77).  The `montage` numpy array is represented by its pixel
dimensions `montageRows × montageCols` (each entry a 3-channel pixel);
the claims concern which pixel rectangles are written, not the written
values. -/
structure results_montage where
  imageW : Nat
  imageH : Nat
  images_per_main_axis : Nat
  by_row : Bool
  montageRows : Nat
  montageCols : Nat
  counter : Nat
  row : Nat
  col : Nat
deriving DecidableEq

/-- `results_montage.__init__(image_size, images_per_main_axis,
num_results, by_row)` (lines 18-42): allocate
`np.zeros((num_main_axis * imageW, min(P, N) * imageH, 3))` for the
row-major layout and the transposed shape for the column-major one, and
start the cursor at `(0, 0)` with `counter = 0`. -/
def results_montage.make (image_size : Nat × Nat)
    (images_per_main_axis num_results : Nat) (by_row : Bool) :
    results_montage :=
  let imageW := image_size.1
  let imageH := image_size.2
  let num_main_axis := ceilDiv num_results images_per_main_axis
  if by_row then
    { imageW := imageW, imageH := imageH,
      images_per_main_axis := images_per_main_axis, by_row := by_row,
      montageRows := num_main_axis * imageW,
      montageCols := min images_per_main_axis num_results * imageH,
      counter := 0, row := 0, col := 0 }
  else
    { imageW := imageW, imageH := imageH,
      images_per_main_axis := images_per_main_axis, by_row := by_row,
      montageRows := min images_per_main_axis num_results * imageW,
      montageCols := num_main_axis * imageH,
      counter := 0, row := 0, col := 0 }

/-- A half-open pixel rectangle `[y0, y1) × [x0, x1)` of the montage
canvas. -/
structure Rect where
  y0 : Nat
  y1 : Nat
  x0 : Nat
  x1 : Nat
deriving DecidableEq

/-- Membership of a pixel in a rectangle. -/
def Rect.memPix (r : Rect) (y x : Nat) : Prop :=
  r.y0 ≤ y ∧ y < r.y1 ∧ r.x0 ≤ x ∧ x < r.x1

/-- Two rectangles share no pixel. -/
def Rect.DisjointPix (a b : Rect) : Prop :=
  ∀ y x, ¬ (a.memPix y x ∧ b.memPix y x)

/-- `results_montage.add_result(image)` (lines 44-77), with the default
`text=None, highlight=False` arguments this repository uses: advance the
cursor to the next row/column when the per-axis count is full, compute
the target slice
`montage[row*imageW:(row+1)*imageW, col*imageH:(col+1)*imageH]` and
assign the `cv2.resize`d image into it, then advance the minor cursor and
the counter.  `cv2.resize(image, (imageH, imageW))` (external) always
yields an array of shape `(imageW, imageH, 3)` for positive sizes.  Numpy
clips slice bounds to the array shape, and the slice assignment raises a
broadcast `ValueError` unless each clipped target dimension equals the
source dimension or the source dimension is 1.  A successful call returns
the updated object and the written pixel rectangle. -/
def results_montage.add_result (m : results_montage) :
    Except String (results_montage × Rect) :=
  let rc : Nat × Nat :=
    if m.by_row then
      if m.counter ≠ 0 ∧ m.counter % m.images_per_main_axis = 0 then
        (m.row + 1, 0)
      else (m.row, m.col)
    else
      if m.counter ≠ 0 ∧ m.counter % m.images_per_main_axis = 0 then
        (0, m.col + 1)
      else (m.row, m.col)
  let row := rc.1
  let col := rc.2
  let startY := row * m.imageW
  let endY := (row + 1) * m.imageW
  let startX := col * m.imageH
  let endX := (col + 1) * m.imageH
  let cy0 := min startY m.montageRows
  let cy1 := min endY m.montageRows
  let cx0 := min startX m.montageCols
  let cx1 := min endX m.montageCols
  if (cy1 - cy0 = m.imageW ∨ m.imageW = 1) ∧
      (cx1 - cx0 = m.imageH ∨ m.imageH = 1) then
    Except.ok
      ({ m with
          row := if m.by_row then row else row + 1,
          col := if m.by_row then col + 1 else col,
          counter := m.counter + 1 },
       { y0 := cy0, y1 := cy1, x0 := cx0, x1 := cx1 })
  else
    Except.error "could not broadcast input array"

/-- Repeated `add_result` calls collecting the written rectangles in
order; the first raised error aborts the run, as in Python. -/
def runAdds : results_montage → Nat →
    Except String (results_montage × List Rect)
  | m, 0 => Except.ok (m, [])
  | m, n + 1 =>
    match m.add_result with
    | Except.error e => Except.error e
    | Except.ok (m2, r) =>
      match runAdds m2 n with
      | Except.error e => Except.error e
      | Except.ok (m3, rs) => Except.ok (m3, r :: rs)

/-- The rectangles written by a run of `n` `add_result` calls, when no
call raises. -/
def runRects (m : results_montage) (n : Nat) : Option (List Rect) :=
  match runAdds m n with
  | Except.ok (_, rs) => some rs
  | Except.error _ => none

/-- The rectangle written by the `i`-th (0-indexed) `add_result` call,
when the calls up to it all succeed. -/
def nthWriteRect (m : results_montage) (i : Nat) : Option Rect :=
  match runAdds m (i + 1) with
  | Except.ok (_, rs) => rs[i]?
  | Except.error _ => none

/-- The grid cell the `i`-th placement goes to: `(i / P, i % P)` when
row-major, `(i % P, i / P)` when column-major. -/
def cellOf (P : Nat) (br : Bool) (i : Nat) : Nat × Nat :=
  if br then (i / P, i % P) else (i % P, i / P)

/-- The pixel rectangle of grid cell `(r, c)` for cell size
`imageW × imageH`. -/
def cellRect (W H r c : Nat) : Rect :=
  { y0 := r * W, y1 := (r + 1) * W, x0 := c * H, x1 := (c + 1) * H }

/-- The pixel rectangle of the `i`-th placement. -/
def rectOf (W H P : Nat) (br : Bool) (i : Nat) : Rect :=
  cellRect W H (cellOf P br i).1 (cellOf P br i).2

/-- The number of grid cells the allocated canvas holds:
`ceil(N/P) * min(P, N)`. -/
def cellCapacity (P N : Nat) : Nat := ceilDiv N P * min P N

/-- Main-axis cursor value after `j` successful placements. -/
def mainAfter (P j : Nat) : Nat := if j = 0 then 0 else (j - 1) / P

/-- Cross-axis cursor value after `j` successful placements. -/
def crossAfter (P j : Nat) : Nat := if j = 0 then 0 else (j - 1) % P + 1

/-- The `results_montage` state after `j` successful placements on a
freshly constructed montage. -/
def stateAfter (W H P N : Nat) (br : Bool) (j : Nat) : results_montage :=
  { imageW := W, imageH := H, images_per_main_axis := P, by_row := br,
    montageRows := if br then ceilDiv N P * W else min P N * W,
    montageCols := if br then min P N * H else ceilDiv N P * H,
    counter := j,
    row := if br then mainAfter P j else crossAfter P j,
    col := if br then crossAfter P j else mainAfter P j }

/-!
## Theorems
-/

/-- An ASCII digit round-trips through its character. -/
theorem charVal_digitChar (d : Nat) (hd : d < 10) :
    charVal (digitChar d) = d := by
  interval_cases d <;> decide

/-- Claim C3: for every list of track entries (with non-null tracks) and
every cursor timestamp `T`, `filter_songs_by_date` returns exactly the
entries whose `added_at` is strictly greater than `T`, in their original
order; and when no entry is strictly newer than `T` (for example when `T`
is the current time), the result is the empty list. -/
theorem filter_songs_by_date_exact (tracks : List TrackItem)
    (since_date : PyDateTime)
    (hall : ∀ item ∈ tracks, item.track ≠ none) :
    filter_songs_by_date tracks since_date =
      tracks.filter (fun item => dtLt since_date item.added_at) ∧
    ((∀ item ∈ tracks, dtLt since_date item.added_at = false) →
      filter_songs_by_date tracks since_date = []) := by
  constructor
  · induction tracks with
    | nil => rfl
    | cons item rest ih =>
      have hitem : item.track ≠ none := hall item (List.mem_cons_self _ _)
      have hrest : ∀ x ∈ rest, x.track ≠ none := by
        intro x hx
        exact hall x (List.mem_cons_of_mem _ hx)
      simp only [filter_songs_by_date, if_neg hitem, List.filter_cons]
      cases h : dtLt since_date item.added_at with
      | true => simp [h, ih hrest]
      | false => simp [h, ih hrest]
  · intro hnone
    induction tracks with
    | nil => rfl
    | cons item rest ih =>
      have hlt : dtLt since_date item.added_at = false :=
        hnone item (List.mem_cons_self _ _)
      have hrest : ∀ x ∈ rest, dtLt since_date x.added_at = false := by
        intro x hx
        exact hnone x (List.mem_cons_of_mem _ hx)
      by_cases htr : item.track = none
      · simp only [filter_songs_by_date, if_pos htr]
        exact ih (by intro x hx; exact hall x (List.mem_cons_of_mem _ hx)) hrest
      · simp only [filter_songs_by_date, if_neg htr, hlt]
        simpa using ih (by intro x hx; exact hall x (List.mem_cons_of_mem _ hx)) hrest

/-- Witness for C3, end-to-end scenario 2: cursor 2024-05-01 on the
three-track playlist keeps exactly the 2024-06-01 and 2024-12-01 entries,
in original order. -/
theorem filter_songs_by_date_exact_witness :
    (filter_songs_by_date scenarioTracks ⟨2024, 5, 1, 0, 0, 0, 0⟩ =
      scenarioTracks.filter
        (fun item => dtLt ⟨2024, 5, 1, 0, 0, 0, 0⟩ item.added_at)) ∧
    scenarioTracks.filter (fun item => dtLt ⟨2024, 5, 1, 0, 0, 0, 0⟩ item.added_at) =
      [ { track := some "track2", added_at := ⟨2024, 6, 1, 0, 0, 0, 0⟩ },
        { track := some "track3", added_at := ⟨2024, 12, 1, 0, 0, 0, 0⟩ } ] :=
  ⟨(filter_songs_by_date_exact scenarioTracks ⟨2024, 5, 1, 0, 0, 0, 0⟩
      (by decide)).1,
   by decide⟩

/-- Claim C9: `filter_songs_by_date` never returns an entry whose `track`
field is null, whatever its `added_at` timestamp and the cursor are. -/
theorem filter_songs_by_date_no_null (tracks : List TrackItem)
    (since_date : PyDateTime) (item : TrackItem)
    (hmem : item ∈ filter_songs_by_date tracks since_date) :
    item.track ≠ none := by
  induction tracks with
  | nil => simp [filter_songs_by_date] at hmem
  | cons hd rest ih =>
    by_cases htr : hd.track = none
    · rw [filter_songs_by_date, if_pos htr] at hmem
      exact ih hmem
    · rw [filter_songs_by_date, if_neg htr] at hmem
      cases h : dtLt since_date hd.added_at with
      | true =>
        rw [h, if_pos rfl] at hmem
        rcases List.mem_cons.mp hmem with heq | hmem2
        · rw [heq]; exact htr
        · exact ih hmem2
      | false =>
        rw [h] at hmem
        simp only [Bool.false_eq_true, if_false] at hmem
        exact ih hmem

/-- Witness for C9: an entry returned by the scenario-2 filter has a
non-null track. -/
theorem filter_songs_by_date_no_null_witness :
    ({ track := some "track2", added_at := ⟨2024, 6, 1, 0, 0, 0, 0⟩ } :
      TrackItem).track ≠ none :=
  filter_songs_by_date_no_null scenarioTracks ⟨2024, 5, 1, 0, 0, 0, 0⟩ _
    (by decide)

/-- The issued batches of `add_tracks_to_playlist` are the 100-sized
slices of the input, taken at the `range(0, len, 100)` indices. -/
theorem add_tracks_to_playlist_fst (uris : List String)
    (post : List String → Bool) :
    (add_tracks_to_playlist uris post).1 = uriBatches uris := by
  have haux : ∀ (idxs : List Nat) (acc1 : List (List String)) (n : Nat),
      (idxs.foldl
        (fun acc i =>
          let batch := (uris.drop i).take 100
          (acc.1 ++ [batch],
           if post batch then acc.2 + batch.length else acc.2))
        (acc1, n)).1 =
      acc1 ++ idxs.map (fun i => (uris.drop i).take 100) := by
    intro idxs
    induction idxs with
    | nil => intro acc1 n; simp
    | cons i rest ih =>
      intro acc1 n
      simp only [List.foldl_cons, List.map_cons]
      rw [ih]
      simp
  exact haux (pyRange uris.length 100) [] 0

/-- Splitting off the first batch of `uriBatches` for a non-empty list. -/
theorem uriBatches_cons (l : List String) (hne : l.length ≠ 0) :
    uriBatches l = l.take 100 :: uriBatches (l.drop 100) := by
  unfold uriBatches pyRange
  rw [List.length_drop]
  have hstep : (l.length + 100 - 1) / 100 = (l.length - 100 + 100 - 1) / 100 + 1 := by
    omega
  rw [hstep, List.range_succ_eq_map]
  simp only [List.map_cons, List.map_map, Function.comp, Nat.zero_mul,
    List.drop_zero]
  congr 1
  apply List.map_congr_left
  intro k _
  simp only [Function.comp_apply, List.drop_drop]
  have hmul : Nat.succ k * 100 = 100 + k * 100 := by omega
  rw [hmul]

/-- `uriBatches` concatenates back to the input list. -/
theorem uriBatches_join (fuel : Nat) :
    ∀ l : List String, l.length ≤ fuel → (uriBatches l).flatten = l := by
  induction fuel with
  | zero =>
    intro l hl
    have hnil : l = [] := List.eq_nil_of_length_eq_zero (Nat.le_zero.mp hl)
    subst hnil
    rfl
  | succ fuel ih =>
    intro l hl
    by_cases hnil : l.length = 0
    · have : l = [] := List.eq_nil_of_length_eq_zero hnil
      subst this
      rfl
    · rw [uriBatches_cons l hnil, List.flatten_cons,
        ih (l.drop 100) (by rw [List.length_drop]; omega),
        List.take_append_drop]

/-- Claim C4: for every list of `n` track URIs, `add_tracks_to_playlist`
issues exactly `ceil(n/100)` write calls, each carrying at most 100 URIs,
whose carried batches concatenate to the input list in order; the number
and contents of the calls do not depend on the per-batch success
responses. -/
theorem add_tracks_to_playlist_batching (uris : List String)
    (post : List String → Bool) :
    (add_tracks_to_playlist uris post).1.length = (uris.length + 99) / 100 ∧
    (∀ b ∈ (add_tracks_to_playlist uris post).1, b.length ≤ 100) ∧
    (add_tracks_to_playlist uris post).1.flatten = uris ∧
    (∀ post2 : List String → Bool,
      (add_tracks_to_playlist uris post2).1 =
        (add_tracks_to_playlist uris post).1) := by
  rw [add_tracks_to_playlist_fst]
  refine ⟨?_, ?_, ?_, ?_⟩
  · simp only [uriBatches, pyRange, List.length_map, List.length_range]
    omega
  · intro b hb
    simp only [uriBatches, pyRange, List.map_map, List.mem_map] at hb
    obtain ⟨k, _, hk⟩ := hb
    rw [← hk]
    simp
  · exact uriBatches_join uris.length uris le_rfl
  · intro post2
    rw [add_tracks_to_playlist_fst]

set_option maxRecDepth 8192 in
/-- Witness for C4, end-to-end scenario 3: 250 URIs produce exactly the
batches of sizes 100, 100, 50, they concatenate to the input, and the
batch list is the same whether every POST fails or every POST succeeds. -/
theorem add_tracks_to_playlist_batching_witness :
    (add_tracks_to_playlist scenarioUris (fun _ => false)).1.map List.length =
      [100, 100, 50] ∧
    (add_tracks_to_playlist scenarioUris (fun _ => false)).1.flatten =
      scenarioUris ∧
    (add_tracks_to_playlist scenarioUris (fun _ => true)).1 =
      (add_tracks_to_playlist scenarioUris (fun _ => false)).1 :=
  ⟨by decide,
   (add_tracks_to_playlist_batching scenarioUris (fun _ => false)).2.2.1,
   (add_tracks_to_playlist_batching scenarioUris (fun _ => false)).2.2.2
     (fun _ => true)⟩

/-- Recombining the four digits of `pad4`. -/
theorem parse4_pad4 (n : Nat) (h : n < 10000) :
    1000 * charVal (digitChar (n / 1000)) +
      100 * charVal (digitChar (n / 100 % 10)) +
      10 * charVal (digitChar (n / 10 % 10)) + charVal (digitChar (n % 10)) =
      n := by
  rw [charVal_digitChar _ (by omega), charVal_digitChar _ (by omega),
    charVal_digitChar _ (by omega), charVal_digitChar _ (by omega)]
  omega

/-- Recombining the two digits of `pad2`. -/
theorem parse2_pad2 (n : Nat) (h : n < 100) :
    10 * charVal (digitChar (n / 10)) + charVal (digitChar (n % 10)) = n := by
  rw [charVal_digitChar _ (by omega), charVal_digitChar _ (by omega)]
  omega

/-- Recombining the six digits of `pad6`. -/
theorem parse6_pad6 (n : Nat) (h : n < 1000000) :
    100000 * charVal (digitChar (n / 100000)) +
      10000 * charVal (digitChar (n / 10000 % 10)) +
      1000 * charVal (digitChar (n / 1000 % 10)) +
      100 * charVal (digitChar (n / 100 % 10)) +
      10 * charVal (digitChar (n / 10 % 10)) + charVal (digitChar (n % 10)) =
      n := by
  rw [charVal_digitChar _ (by omega), charVal_digitChar _ (by omega),
    charVal_digitChar _ (by omega), charVal_digitChar _ (by omega),
    charVal_digitChar _ (by omega), charVal_digitChar _ (by omega)]
  omega

/-- Claim C5: writing the cursor file with `save_last_run_date` and then
reading it with `load_last_run_date` yields back exactly the timestamp
that was written, for every datetime whose fields fit the ISO-8601
serialization widths. -/
theorem load_after_save (t : PyDateTime) (file : Option (List Char))
    (fallback : PyDateTime)
    (hy : t.year < 10000) (hmo : t.month < 100) (hd : t.day < 100)
    (hh : t.hour < 100) (hmi : t.minute < 100) (hs : t.second < 100)
    (hus : t.microsecond < 1000000) :
    load_last_run_date (save_last_run_date t file) fallback = some t := by
  obtain ⟨y, mo, d, h, mi, s, us⟩ := t
  simp only at hy hmo hd hh hmi hs hus
  show fromisoformat (isoformat ⟨y, mo, d, h, mi, s, us⟩) = some _
  by_cases hus0 : us = 0
  · subst hus0
    simp only [isoformat, pad4, pad2, pad6, if_pos, List.cons_append,
      List.nil_append, ite_true, fromisoformat]
    rw [if_pos (by decide)]
    rw [parse4_pad4 y hy, parse2_pad2 mo hmo, parse2_pad2 d hd,
      parse2_pad2 h hh, parse2_pad2 mi hmi, parse2_pad2 s hs]
  · simp only [isoformat, pad4, pad2, pad6, if_neg hus0, List.cons_append,
      List.nil_append, fromisoformat]
    rw [if_pos (by decide)]
    rw [parse4_pad4 y hy, parse2_pad2 mo hmo, parse2_pad2 d hd,
      parse2_pad2 h hh, parse2_pad2 mi hmi, parse2_pad2 s hs,
      parse6_pad6 us hus]

/-- Witness for C5: a concrete timestamp round-trips through the cursor
file, both with and without a microsecond part. -/
theorem load_after_save_witness :
    load_last_run_date
        (save_last_run_date ⟨2024, 5, 1, 12, 30, 7, 123456⟩ none)
        ⟨2000, 1, 1, 0, 0, 0, 0⟩ =
      some ⟨2024, 5, 1, 12, 30, 7, 123456⟩ :=
  load_after_save ⟨2024, 5, 1, 12, 30, 7, 123456⟩ none ⟨2000, 1, 1, 0, 0, 0, 0⟩
    (by decide) (by decide) (by decide) (by decide) (by decide) (by decide)
    (by decide)

/-- The per-playlist loop keeps exactly the contributions of the
playlists whose own reads succeed, in order. -/
theorem processPlaylists_eq_filterMap
    (playlistResp : String → PlaylistHttpResponse) (last_run : PyDateTime)
    (links : List String) :
    processPlaylists playlistResp last_run links =
      links.filterMap (processOne playlistResp last_run) := by
  have haux : ∀ (ls : List String) (acc : List (String × List TrackItem)),
      (ls.foldl
        (fun acc link =>
          match get_playlist_with_dates (playlistResp link) with
          | Except.error _ => acc
          | Except.ok (tracks, name) =>
            let new_tracks := filter_songs_by_date tracks last_run
            if new_tracks = [] then acc else acc ++ [(name, new_tracks)])
        acc) =
      acc ++ ls.filterMap (processOne playlistResp last_run) := by
    intro ls
    induction ls with
    | nil => intro acc; simp
    | cons link rest ih =>
      intro acc
      simp only [List.foldl_cons, List.filterMap_cons, processOne]
      cases hre : get_playlist_with_dates (playlistResp link) with
      | error e => simp [ih]
      | ok v =>
        obtain ⟨tracks, name⟩ := v
        by_cases hnt : filter_songs_by_date tracks last_run = []
        · simp [hnt, ih]
        · simp [hnt, ih]
  exact haux links []

/-- Corrected claim C6: with a usable token (2xx as tested by the code),
a network failure during one playlist's read is fatal only to that
playlist — the exception is caught and every other playlist in the run is
still processed; but a failure during token acquisition propagates out of
`main` and aborts the run before any playlist is processed. -/
theorem main_fault_isolation (tokenResp : TokenHttpResponse)
    (playlistResp : String → PlaylistHttpResponse) (last_run : PyDateTime)
    (links : List String) :
    (200 ≤ tokenResp.status ∧ tokenResp.status < 299 →
      main_run tokenResp playlistResp last_run links =
        Except.ok (links.filterMap (processOne playlistResp last_run))) ∧
    (¬ (200 ≤ tokenResp.status ∧ tokenResp.status < 299) →
      main_run tokenResp playlistResp last_run links =
        Except.error "Failed to get access token") := by
  constructor
  · intro hok
    simp only [main_run, get_access_token, if_pos hok,
      processPlaylists_eq_filterMap]
  · intro hbad
    simp only [main_run, get_access_token, if_neg hbad]

/-- Counterexample to claim C6 as stated: a non-2xx response during token
acquisition is not confined to one playlist — `main` raises before the
loop, and no playlist is processed, even though the playlist's own read
would succeed. -/
theorem main_token_failure_counterexample :
    main_run ⟨500, "tok"⟩ c6Resp ⟨2024, 5, 1, 0, 0, 0, 0⟩ ["good", "also-good"] =
      Except.error "Failed to get access token" ∧
    get_playlist_with_dates (c6Resp "good") =
      Except.ok (scenarioTracks, "Good") :=
  ⟨rfl, rfl⟩

/-- Witness for the corrected C6: with a good token, the playlist whose
read answers 500 is skipped while the other playlist is still fully
processed. -/
theorem main_fault_isolation_witness :
    main_run ⟨200, "tok"⟩ c6Resp ⟨2024, 5, 1, 0, 0, 0, 0⟩ ["bad", "good"] =
      Except.ok
        [("Good",
          [ { track := some "track2", added_at := ⟨2024, 6, 1, 0, 0, 0, 0⟩ },
            { track := some "track3", added_at := ⟨2024, 12, 1, 0, 0, 0, 0⟩ } ])] := by
  have h := (main_fault_isolation ⟨200, "tok"⟩ c6Resp ⟨2024, 5, 1, 0, 0, 0, 0⟩
    ["bad", "good"]).1 (by decide)
  rw [h]
  rfl

/-- Claim C7: when a token refresh attempt gets a non-200 response, the
cached token file is deleted and no usable token is returned from the
refresh; the next call to `get_user_token` then finds no cache and enters
the fresh interactive authorization flow. -/
theorem refresh_failure_forces_reauth (now now2 : Nat)
    (resp resp2 : RefreshResponse) (td : TokenCacheData) (rt : String)
    (hexp : ¬ now < td.expires_at - 300)
    (hrt : td.refresh_token = some rt)
    (hfail : resp.status ≠ 200) :
    get_user_token now resp (some td) = (TokenOutcome.refreshed none, none) ∧
    (get_user_token now2 resp2 none).1 = TokenOutcome.interactiveAuth := by
  constructor
  · simp only [get_user_token, if_neg hexp, hrt, refresh_access_token,
      if_pos hfail]
  · rfl

/-- Witness for C7: an expired cache with a refresh token, refresh
answered with 400 — the cache is wiped, no token is returned, and the
next call goes interactive. -/
theorem refresh_failure_forces_reauth_witness :
    get_user_token 1000 ⟨400, "new", 3600⟩
        (some ⟨"old", some "refresh", 1100⟩) =
      (TokenOutcome.refreshed none, none) ∧
    (get_user_token 2000 ⟨200, "fresh", 3600⟩ none).1 =
      TokenOutcome.interactiveAuth :=
  refresh_failure_forces_reauth 1000 2000 ⟨400, "new", 3600⟩
    ⟨200, "fresh", 3600⟩ ⟨"old", some "refresh", 1100⟩ "refresh"
    (by decide) rfl (by decide)

/-- `pickMax` started at `b` returns an element among `b` and the scanned
list whose count dominates `b` and every scanned element. -/
theorem pickMax_spec {α : Type} (cnt : α → Nat) (xs : List α) :
    ∀ b : α, ∃ r, pickMax cnt (some b) xs = some r ∧
      (r = b ∨ r ∈ xs) ∧ cnt b ≤ cnt r ∧ ∀ x ∈ xs, cnt x ≤ cnt r := by
  induction xs with
  | nil =>
    intro b
    exact ⟨b, rfl, Or.inl rfl, Nat.le_refl _, by simp⟩
  | cons x xs ih =>
    intro b
    by_cases hc : cnt b < cnt x
    · obtain ⟨r, hr, hmem, hble, hall⟩ := ih x
      refine ⟨r, ?_, ?_, ?_, ?_⟩
      · simp only [pickMax, if_pos hc]
        exact hr
      · rcases hmem with h | h
        · exact Or.inr (by rw [h]; exact List.mem_cons_self x xs)
        · exact Or.inr (List.mem_cons_of_mem x h)
      · exact Nat.le_trans (Nat.le_of_lt hc) hble
      · intro z hz
        rcases List.mem_cons.mp hz with hzx | hzs
        · rw [hzx]; exact hble
        · exact hall z hzs
    · obtain ⟨r, hr, hmem, hble, hall⟩ := ih b
      refine ⟨r, ?_, ?_, ?_, ?_⟩
      · simp only [pickMax, if_neg hc]
        exact hr
      · rcases hmem with h | h
        · exact Or.inl h
        · exact Or.inr (List.mem_cons_of_mem x h)
      · exact hble
      · intro z hz
        rcases List.mem_cons.mp hz with hzx | hzs
        · rw [hzx]; exact Nat.le_trans (Nat.le_of_not_lt hc) hble
        · exact hall z hzs

/-- `mostCommonLabel` of a non-empty list is a label of maximal count. -/
theorem mostCommonLabel_spec {α : Type} [DecidableEq α] (labels : List α)
    (hne : labels ≠ []) :
    ∃ l, mostCommonLabel labels = some l ∧
      ∀ x, labels.count x ≤ labels.count l := by
  cases labels with
  | nil => exact absurd rfl hne
  | cons y ys =>
    obtain ⟨r, hr, _, hble, hall⟩ :=
      pickMax_spec (fun x => (y :: ys).count x) ys y
    refine ⟨r, ?_, ?_⟩
    · simp only [mostCommonLabel, pickMax]
      exact hr
    · intro x
      by_cases hx : x ∈ y :: ys
      · rcases List.mem_cons.mp hx with h | h
        · rw [h]; exact hble
        · exact hall x h
      · rw [List.count_eq_zero_of_not_mem hx]
        exact Nat.zero_le _

/-- The label counts of a labelling partition the labelled list: they sum
to its length. -/
theorem sum_count_length {k : Nat} (labels : List (Fin k)) :
    (∑ l : Fin k, labels.count l) = labels.length := by
  induction labels with
  | nil => simp
  | cons x xs ih =>
    simp only [List.count_cons, List.length_cons]
    rw [Finset.sum_add_distrib, ih]
    simp

/-- Claim C8: for a non-empty (optionally downsampled) image and any
`k`-clustering of its pixels, `get_dominant_color` returns the centroid
color of the cluster containing the most pixels, and the `k` clusters
partition all the pixels (their sizes sum to the pixel count). -/
theorem get_dominant_color_largest_centroid (k : Nat) (image : List Pixel)
    (resize : Option (List Pixel → List Pixel))
    (fit_predict : List Pixel → List (Fin k))
    (cluster_centers : Fin k → Pixel)
    (hlen : (fit_predict (resizedImage resize image)).length =
      (resizedImage resize image).length)
    (hne : resizedImage resize image ≠ []) :
    ∃ l : Fin k,
      get_dominant_color k image resize fit_predict cluster_centers =
        some (cluster_centers l) ∧
      (∀ l2 : Fin k,
        (fit_predict (resizedImage resize image)).count l2 ≤
          (fit_predict (resizedImage resize image)).count l) ∧
      (∑ l2 : Fin k, (fit_predict (resizedImage resize image)).count l2) =
        (resizedImage resize image).length := by
  have hlne : fit_predict (resizedImage resize image) ≠ [] := by
    intro h
    rw [h] at hlen
    exact hne (List.eq_nil_of_length_eq_zero hlen.symm)
  obtain ⟨l, hl, hmax⟩ := mostCommonLabel_spec _ hlne
  refine ⟨l, ?_, hmax, ?_⟩
  · simp only [get_dominant_color, hl]
  · rw [sum_count_length, hlen]

/-- Witness for C8: on the concrete 3-pixel image with the threshold
clustering, the dominant color is the centroid of the 2-pixel cluster. -/
theorem get_dominant_color_largest_centroid_witness :
    ∃ l : Fin 2,
      get_dominant_color 2 c8Image none c8Fit c8Centers =
        some (c8Centers l) ∧
      (∀ l2 : Fin 2,
        (c8Fit (resizedImage none c8Image)).count l2 ≤
          (c8Fit (resizedImage none c8Image)).count l) ∧
      (∑ l2 : Fin 2, (c8Fit (resizedImage none c8Image)).count l2) =
        (resizedImage none c8Image).length :=
  get_dominant_color_largest_centroid 2 c8Image none c8Fit c8Centers
    (by decide) (by decide)

/-- A fresh montage is the state after zero placements. -/
theorem stateAfter_zero (W H P N : Nat) (br : Bool) :
    stateAfter W H P N br 0 = results_montage.make (W, H) P N br := by
  cases br <;> simp [stateAfter, results_montage.make, mainAfter, crossAfter]

/-- Row dimension of the allocated canvas. -/
theorem make_montageRows (W H P N : Nat) (br : Bool) :
    (results_montage.make (W, H) P N br).montageRows =
      if br then ceilDiv N P * W else min P N * W := by
  cases br <;> rfl

/-- Column dimension of the allocated canvas. -/
theorem make_montageCols (W H P N : Nat) (br : Bool) :
    (results_montage.make (W, H) P N br).montageCols =
      if br then min P N * H else ceilDiv N P * H := by
  cases br <;> rfl

/-- Closed form of the cursor adjustment at the start of the `j`-th call:
whatever the wrap-around test decides, the adjusted main/cross cursor
pair is `(j / P, j % P)`. -/
theorem cursorStep_closed (P j : Nat) (hP : 0 < P) :
    (if j ≠ 0 ∧ j % P = 0 then (mainAfter P j + 1, 0)
     else (mainAfter P j, crossAfter P j)) = (j / P, j % P) := by
  by_cases hj : j = 0
  · subst hj
    simp [mainAfter, crossAfter]
  · have hdm := Nat.div_add_mod j P
    have hrP : j % P < P := Nat.mod_lt _ hP
    by_cases hr0 : j % P = 0
    · set q := j / P with hq
      have hjq : j = P * q := by omega
      obtain ⟨q2, hq2⟩ : ∃ q2, q = q2 + 1 := by
        rcases q with _ | q2
        · rw [Nat.mul_zero] at hjq
          exact absurd hjq hj
        · exact ⟨q2, rfl⟩
      rw [hq2] at hjq
      have hPq : P * (q2 + 1) = P * q2 + P := by ring
      have hsplit : j - 1 = P * q2 + (P - 1) := by omega
      rw [if_pos ⟨hj, hr0⟩]
      simp only [Prod.mk.injEq, mainAfter, if_neg hj]
      rw [hsplit, Nat.mul_add_div hP, Nat.div_eq_of_lt (by omega)]
      omega
    · set q := j / P with hq
      set r := j % P with hr
      have hsplit : j - 1 = P * q + (r - 1) := by omega
      rw [if_neg (fun hc => hr0 hc.2)]
      simp only [Prod.mk.injEq, mainAfter, crossAfter, if_neg hj]
      rw [hsplit, Nat.mul_add_div hP, Nat.mul_add_mod,
        Nat.div_eq_of_lt (by omega), Nat.mod_eq_of_lt (by omega)]
      omega

/-- A placement index below the cell capacity addresses a cell inside the
allocated grid. -/
theorem cell_in_bounds (P N j : Nat) (hP : 0 < P) (hN : 0 < N)
    (hj : j < cellCapacity P N) :
    j / P < ceilDiv N P ∧ j % P < min P N := by
  rcases le_or_lt P N with hPN | hNP
  · have hmin : min P N = P := Nat.min_eq_left hPN
    rw [cellCapacity, hmin] at hj
    refine ⟨(Nat.div_lt_iff_lt_mul hP).mpr hj, ?_⟩
    rw [hmin]
    exact Nat.mod_lt _ hP
  · have hmin : min P N = N := Nat.min_eq_right (Nat.le_of_lt hNP)
    have hceil : ceilDiv N P = 1 := by
      rw [ceilDiv]
      exact Nat.div_eq_of_lt_le (by omega) (by omega)
    rw [cellCapacity, hceil, hmin, Nat.one_mul] at hj
    have hjP : j < P := Nat.lt_trans hj hNP
    constructor
    · rw [hceil, Nat.div_eq_of_lt hjP]
      exact Nat.one_pos
    · rw [hmin, Nat.mod_eq_of_lt hjP]
      exact hj

/-- Column-major form of `cursorStep_closed`: the adjusted `(row, col)`
pair is `(j % P, j / P)`. -/
theorem cursorStep_closed_swap (P j : Nat) (hP : 0 < P) :
    (if j ≠ 0 ∧ j % P = 0 then (0, mainAfter P j + 1)
     else (crossAfter P j, mainAfter P j)) = (j % P, j / P) := by
  have h := cursorStep_closed P j hP
  by_cases hc : j ≠ 0 ∧ j % P = 0
  · rw [if_pos hc] at h ⊢
    simp only [Prod.mk.injEq] at h ⊢
    exact ⟨h.2, h.1⟩
  · rw [if_neg hc] at h ⊢
    simp only [Prod.mk.injEq] at h ⊢
    exact ⟨h.2, h.1⟩

/-- The `j`-th `add_result` call on a fresh montage (for `j` below the
cell capacity) succeeds, writes exactly the pixel rectangle of its grid
cell, and leaves the state for the next call. -/
theorem add_result_ok (W H P N : Nat) (br : Bool) (j : Nat)
    (hP : 0 < P) (hN : 0 < N) (hW : 0 < W) (hH : 0 < H)
    (hj : j < cellCapacity P N) :
    (stateAfter W H P N br j).add_result =
      Except.ok (stateAfter W H P N br (j + 1), rectOf W H P br j) := by
  obtain ⟨hdiv, hmod⟩ := cell_in_bounds P N j hP hN hj
  have hy0 : j / P * W ≤ ceilDiv N P * W :=
    Nat.mul_le_mul_right W (Nat.le_of_lt hdiv)
  have hy1 : (j / P + 1) * W ≤ ceilDiv N P * W :=
    Nat.mul_le_mul_right W hdiv
  have hx0 : j % P * H ≤ min P N * H :=
    Nat.mul_le_mul_right H (Nat.le_of_lt hmod)
  have hx1 : (j % P + 1) * H ≤ min P N * H :=
    Nat.mul_le_mul_right H hmod
  have hdw : (j / P + 1) * W - j / P * W = W := by
    rw [Nat.add_mul, Nat.one_mul, Nat.add_sub_cancel_left]
  have hdh : (j % P + 1) * H - j % P * H = H := by
    rw [Nat.add_mul, Nat.one_mul, Nat.add_sub_cancel_left]
  cases br with
  | true =>
    simp only [results_montage.add_result, stateAfter, eq_self_iff_true,
      if_true]
    rw [cursorStep_closed P j hP]
    dsimp only
    rw [Nat.min_eq_left hy0, Nat.min_eq_left hy1, Nat.min_eq_left hx0,
      Nat.min_eq_left hx1, hdw, hdh]
    rw [if_pos ⟨Or.inl rfl, Or.inl rfl⟩]
    simp [mainAfter, crossAfter, rectOf, cellOf, cellRect]
  | false =>
    have hy0f : j % P * W ≤ min P N * W :=
      Nat.mul_le_mul_right W (Nat.le_of_lt hmod)
    have hy1f : (j % P + 1) * W ≤ min P N * W :=
      Nat.mul_le_mul_right W hmod
    have hx0f : j / P * H ≤ ceilDiv N P * H :=
      Nat.mul_le_mul_right H (Nat.le_of_lt hdiv)
    have hx1f : (j / P + 1) * H ≤ ceilDiv N P * H :=
      Nat.mul_le_mul_right H hdiv
    have hdwf : (j % P + 1) * W - j % P * W = W := by
      rw [Nat.add_mul, Nat.one_mul, Nat.add_sub_cancel_left]
    have hdhf : (j / P + 1) * H - j / P * H = H := by
      rw [Nat.add_mul, Nat.one_mul, Nat.add_sub_cancel_left]
    simp only [results_montage.add_result, stateAfter, Bool.false_eq_true,
      if_false]
    rw [cursorStep_closed_swap P j hP]
    dsimp only
    rw [Nat.min_eq_left hy0f, Nat.min_eq_left hy1f, Nat.min_eq_left hx0f,
      Nat.min_eq_left hx1f, hdwf, hdhf]
    rw [if_pos ⟨Or.inl rfl, Or.inl rfl⟩]
    simp [mainAfter, crossAfter, rectOf, cellOf, cellRect]

/-- Running `k` placements from the state after `j` placements (staying
within capacity) succeeds and writes the cells `j, ..., j + k - 1`. -/
theorem runAdds_ok (W H P N : Nat) (br : Bool)
    (hP : 0 < P) (hN : 0 < N) (hW : 0 < W) (hH : 0 < H) :
    ∀ (k j : Nat), j + k ≤ cellCapacity P N →
      runAdds (stateAfter W H P N br j) k =
        Except.ok (stateAfter W H P N br (j + k),
          (List.range k).map (fun t => rectOf W H P br (j + t))) := by
  intro k
  induction k with
  | zero =>
    intro j _
    simp [runAdds]
  | succ k ih =>
    intro j h
    have hjk : j + 1 + k = j + (k + 1) := by omega
    have hlist : (List.range (k + 1)).map (fun t => rectOf W H P br (j + t)) =
        rectOf W H P br j ::
          (List.range k).map (fun t => rectOf W H P br (j + 1 + t)) := by
      rw [List.range_succ_eq_map, List.map_cons, List.map_map]
      simp only [Nat.add_zero]
      congr 1
      apply List.map_congr_left
      intro t _
      simp only [Function.comp_apply]
      congr 1
      omega
    simp only [runAdds]
    rw [add_result_ok W H P N br j hP hN hW hH (by omega)]
    dsimp only
    rw [ih (j + 1) (by omega), hlist, hjk]

/-- Within capacity, the `i`-th placement writes exactly the pixel
rectangle of its grid cell. -/
theorem nthWriteRect_rectOf (W H P N : Nat) (br : Bool) (i : Nat)
    (hP : 0 < P) (hN : 0 < N) (hW : 0 < W) (hH : 0 < H)
    (hi : i < cellCapacity P N) :
    nthWriteRect (results_montage.make (W, H) P N br) i =
      some (rectOf W H P br i) := by
  rw [← stateAfter_zero]
  have h := runAdds_ok W H P N br hP hN hW hH (i + 1) 0 (by omega)
  simp only [Nat.zero_add] at h
  rw [nthWriteRect, h]
  simp [List.getElem?_map, List.getElem?_range, hi]

/-- If a run reaches a state whose next `add_result` raises, the run
extended by one call raises. -/
theorem runAdds_append_err (a : Nat) :
    ∀ (m m2 : results_montage) (rs : List Rect) (e : String),
      runAdds m a = Except.ok (m2, rs) →
      m2.add_result = Except.error e →
      runAdds m (a + 1) = Except.error e := by
  induction a with
  | zero =>
    intro m m2 rs e h1 h2
    simp only [runAdds, Except.ok.injEq, Prod.mk.injEq] at h1
    rw [← h1.1] at h2
    simp only [runAdds, h2]
  | succ a ih =>
    intro m m2 rs e h1 h2
    cases hstep : m.add_result with
    | error e2 =>
      rw [runAdds, hstep] at h1
      exact absurd h1 (by simp)
    | ok v =>
      obtain ⟨m1, r⟩ := v
      rw [runAdds, hstep] at h1
      dsimp only at h1
      cases hrec : runAdds m1 a with
      | error e3 =>
        rw [hrec] at h1
        exact absurd h1 (by simp)
      | ok v2 =>
        obtain ⟨m3, rs2⟩ := v2
        rw [hrec] at h1
        simp only [Except.ok.injEq, Prod.mk.injEq] at h1
        have hrec2 : runAdds m1 a = Except.ok (m2, rs2) := by
          rw [hrec, h1.1]
        have := ih m1 m2 rs2 e hrec2 h2
        rw [runAdds, hstep]
        dsimp only
        rw [this]

/-- The first placement beyond the cell capacity raises the numpy
broadcast error: its slice is clipped to an empty extent, which cannot
receive an image of width and height at least 2. -/
theorem add_result_at_capacity_err (W H P N : Nat) (br : Bool)
    (hP : 0 < P) (hN : 0 < N) (hW : 2 ≤ W) (hH : 2 ≤ H) :
    (stateAfter W H P N br (cellCapacity P N)).add_result =
      Except.error "could not broadcast input array" := by
  rcases le_or_lt P N with hPN | hNP
  · have hmin : min P N = P := Nat.min_eq_left hPN
    have hcapP : cellCapacity P N = ceilDiv N P * P := by
      rw [cellCapacity, hmin]
    have hdiv : cellCapacity P N / P = ceilDiv N P := by
      rw [hcapP]
      exact Nat.mul_div_cancel _ hP
    have hmod : cellCapacity P N % P = 0 := by
      rw [hcapP]
      exact Nat.mul_mod_left _ _
    have hyr : min ((ceilDiv N P + 1) * W) (ceilDiv N P * W) =
        ceilDiv N P * W :=
      Nat.min_eq_right (Nat.mul_le_mul_right W (by omega))
    have hxr : min ((ceilDiv N P + 1) * H) (ceilDiv N P * H) =
        ceilDiv N P * H :=
      Nat.min_eq_right (Nat.mul_le_mul_right H (by omega))
    cases br with
    | true =>
      simp only [results_montage.add_result, stateAfter, eq_self_iff_true,
        if_true]
      rw [cursorStep_closed P _ hP]
      dsimp only
      rw [hdiv, hmod, hyr, Nat.min_self, Nat.sub_self]
      split
      · next hcond =>
        rcases hcond.1 with h1 | h1 <;> omega
      · rfl
    | false =>
      simp only [results_montage.add_result, stateAfter, Bool.false_eq_true,
        if_false]
      rw [cursorStep_closed_swap P _ hP]
      dsimp only
      rw [hdiv, hmod, hxr, Nat.min_self, Nat.sub_self]
      split
      · next hcond =>
        rcases hcond.2 with h1 | h1 <;> omega
      · rfl
  · have hmin : min P N = N := Nat.min_eq_right (Nat.le_of_lt hNP)
    have hceil : ceilDiv N P = 1 := by
      rw [ceilDiv]
      exact Nat.div_eq_of_lt_le (by omega) (by omega)
    have hcapN : cellCapacity P N = N := by
      rw [cellCapacity, hceil, hmin, Nat.one_mul]
    have hdiv : cellCapacity P N / P = 0 := by
      rw [hcapN]
      exact Nat.div_eq_of_lt hNP
    have hmod : cellCapacity P N % P = N := by
      rw [hcapN]
      exact Nat.mod_eq_of_lt hNP
    have hyr : min ((N + 1) * W) (N * W) = N * W :=
      Nat.min_eq_right (Nat.mul_le_mul_right W (by omega))
    have hxr : min ((N + 1) * H) (N * H) = N * H :=
      Nat.min_eq_right (Nat.mul_le_mul_right H (by omega))
    cases br with
    | true =>
      simp only [results_montage.add_result, stateAfter, eq_self_iff_true,
        if_true]
      rw [cursorStep_closed P _ hP]
      dsimp only
      rw [hdiv, hmod, hmin, hxr, Nat.min_self, Nat.sub_self]
      split
      · next hcond =>
        rcases hcond.2 with h1 | h1 <;> omega
      · rfl
    | false =>
      simp only [results_montage.add_result, stateAfter, Bool.false_eq_true,
        if_false]
      rw [cursorStep_closed_swap P _ hP]
      dsimp only
      rw [hdiv, hmod, hmin, hyr, Nat.min_self, Nat.sub_self]
      split
      · next hcond =>
        rcases hcond.1 with h1 | h1 <;> omega
      · rfl

/-- A run of one placement more than the cell capacity raises. -/
theorem runAdds_past_capacity (W H P N : Nat) (br : Bool)
    (hP : 0 < P) (hN : 0 < N) (hW : 2 ≤ W) (hH : 2 ≤ H) :
    runAdds (results_montage.make (W, H) P N br)
        (cellCapacity P N + 1) =
      Except.error "could not broadcast input array" := by
  rw [← stateAfter_zero]
  have hrun := runAdds_ok W H P N br hP hN (by omega) (by omega)
    (cellCapacity P N) 0 (by omega)
  simp only [Nat.zero_add] at hrun
  exact runAdds_append_err (cellCapacity P N) _ _ _ _ hrun
    (add_result_at_capacity_err W H P N br hP hN hW hH)

/-- Distinct multiples of a positive cell size are distinct and one whole
cell apart. -/
theorem mul_ne_and_apart (W a b : Nat) (hW : 0 < W) (hab : a ≠ b) :
    a * W ≠ b * W ∧ ((a + 1) * W ≤ b * W ∨ (b + 1) * W ≤ a * W) := by
  rcases Nat.lt_or_ge a b with h | h
  · have hle : (a + 1) * W ≤ b * W := Nat.mul_le_mul_right W h
    have hra : (a + 1) * W = a * W + W := by ring
    exact ⟨by omega, Or.inl hle⟩
  · have hb : b < a := Nat.lt_of_le_of_ne h (Ne.symm hab)
    have hle : (b + 1) * W ≤ a * W := Nat.mul_le_mul_right W hb
    have hrb : (b + 1) * W = b * W + W := by ring
    exact ⟨by omega, Or.inr hle⟩

/-- Rectangles of distinct grid cells are distinct and share no pixel. -/
theorem cellRect_ne_disjoint (W H r c r2 c2 : Nat) (hW : 0 < W)
    (hH : 0 < H) (hne : r ≠ r2 ∨ c ≠ c2) :
    cellRect W H r c ≠ cellRect W H r2 c2 ∧
      (cellRect W H r c).DisjointPix (cellRect W H r2 c2) := by
  rcases hne with hr | hc
  · obtain ⟨hne0, hdisj⟩ := mul_ne_and_apart W r r2 hW hr
    constructor
    · intro heq
      exact hne0 (congrArg Rect.y0 heq)
    · intro y x hcontra
      obtain ⟨hA, hB⟩ := hcontra
      simp only [cellRect, Rect.memPix] at hA hB
      rcases hdisj with hd | hd <;> omega
  · obtain ⟨hne0, hdisj⟩ := mul_ne_and_apart H c c2 hH hc
    constructor
    · intro heq
      exact hne0 (congrArg Rect.x0 heq)
    · intro y x hcontra
      obtain ⟨hA, hB⟩ := hcontra
      simp only [cellRect, Rect.memPix] at hA hB
      rcases hdisj with hd | hd <;> omega

/-- Rectangles of distinct placement indices are distinct and share no
pixel. -/
theorem rectOf_ne_disjoint (W H P : Nat) (br : Bool) (hP : 0 < P)
    (hW : 0 < W) (hH : 0 < H) (i j : Nat) (hij : i ≠ j) :
    rectOf W H P br i ≠ rectOf W H P br j ∧
      (rectOf W H P br i).DisjointPix (rectOf W H P br j) := by
  have hcell : i / P ≠ j / P ∨ i % P ≠ j % P := by
    by_contra hcon
    push_neg at hcon
    apply hij
    have hdi := Nat.div_add_mod i P
    have hdj := Nat.div_add_mod j P
    rw [hcon.1, hcon.2] at hdi
    exact hdi.symm.trans hdj
  cases br with
  | true =>
    simp only [rectOf, cellOf, if_true]
    exact cellRect_ne_disjoint W H _ _ _ _ hW hH hcell
  | false =>
    simp only [rectOf, cellOf, if_false]
    exact cellRect_ne_disjoint W H _ _ _ _ hW hH
      (hcell.elim (fun h => Or.inr h) (fun h => Or.inl h))

/-- Claim C1 as amended: for positive cell sizes and counts, the canvas
allocated by `results_montage` holds `ceil(N/P) * min(P, N)` cells (not
`ceil(N/P) * P`: the cross axis is clipped to `min(P, N)` cells), and
each of the first `min(placements, capacity)` calls to `add_result`
succeeds and writes into a cell distinct from and non-overlapping with
every other written cell. -/
theorem montage_capacity_cells_disjoint (W H P N n : Nat) (br : Bool)
    (hP : 0 < P) (hN : 0 < N) (hW : 0 < W) (hH : 0 < H) :
    ((results_montage.make (W, H) P N br).montageRows / W) *
        ((results_montage.make (W, H) P N br).montageCols / H) =
      cellCapacity P N ∧
    runRects (results_montage.make (W, H) P N br)
        (min n (cellCapacity P N)) =
      some ((List.range (min n (cellCapacity P N))).map (rectOf W H P br)) ∧
    ((List.range (min n (cellCapacity P N))).map (rectOf W H P br)).Pairwise
      (fun a b => a ≠ b ∧ a.DisjointPix b) := by
  refine ⟨?_, ?_, ?_⟩
  · rw [make_montageRows, make_montageCols]
    cases br with
    | true =>
      simp only [eq_self_iff_true, if_true]
      rw [Nat.mul_div_cancel _ hW, Nat.mul_div_cancel _ hH, cellCapacity]
    | false =>
      simp only [Bool.false_eq_true, if_false]
      rw [Nat.mul_div_cancel _ hW, Nat.mul_div_cancel _ hH, cellCapacity,
        Nat.mul_comm]
  · rw [← stateAfter_zero]
    have h := runAdds_ok W H P N br hP hN hW hH
      (min n (cellCapacity P N)) 0 (by omega)
    simp only [Nat.zero_add] at h
    rw [runRects, h]
  · rw [List.pairwise_map]
    exact (List.pairwise_lt_range _).imp
      (fun hlt => rectOf_ne_disjoint W H P br hP hW hH _ _ (Nat.ne_of_lt hlt))

/-- Claim C2: for every placement index `i` below the capacity, the
`i`-th `add_result` call (0-indexed) writes exactly the rectangle of grid
cell `(i / P, i % P)` when `by_row` is true and of `(i % P, i / P)` when
`by_row` is false. -/
theorem add_result_places_in_grid_cell (W H P N : Nat) (br : Bool)
    (i : Nat) (hP : 0 < P) (hN : 0 < N) (hW : 0 < W) (hH : 0 < H)
    (hi : i < cellCapacity P N) :
    nthWriteRect (results_montage.make (W, H) P N br) i =
      some (cellRect W H (cellOf P br i).1 (cellOf P br i).2) :=
  nthWriteRect_rectOf W H P N br i hP hN hW hH hi

/-- Claim C10: every placement whose index is within the allocated
capacity writes exactly its own cell's rectangle, which lies inside the
canvas; and the first placement beyond the capacity raises (the resized
image cannot be broadcast into the clipped, empty slice) instead of
writing anywhere. -/
theorem add_result_cell_safety (W H P N : Nat) (br : Bool)
    (hP : 0 < P) (hN : 0 < N) (hW : 2 ≤ W) (hH : 2 ≤ H) :
    (∀ i, i < cellCapacity P N →
      nthWriteRect (results_montage.make (W, H) P N br) i =
        some (rectOf W H P br i) ∧
      (rectOf W H P br i).y1 ≤
        (results_montage.make (W, H) P N br).montageRows ∧
      (rectOf W H P br i).x1 ≤
        (results_montage.make (W, H) P N br).montageCols) ∧
    runAdds (results_montage.make (W, H) P N br) (cellCapacity P N + 1) =
      Except.error "could not broadcast input array" := by
  constructor
  · intro i hi
    obtain ⟨hdiv, hmod⟩ := cell_in_bounds P N i hP hN hi
    refine ⟨nthWriteRect_rectOf W H P N br i hP hN (by omega) (by omega) hi,
      ?_, ?_⟩
    · rw [make_montageRows]
      cases br with
      | true =>
        simp only [rectOf, cellOf, cellRect, if_true]
        exact Nat.mul_le_mul_right W hdiv
      | false =>
        simp only [rectOf, cellOf, cellRect, if_false]
        exact Nat.mul_le_mul_right W hmod
    · rw [make_montageCols]
      cases br with
      | true =>
        simp only [rectOf, cellOf, cellRect, if_true]
        exact Nat.mul_le_mul_right H hmod
      | false =>
        simp only [rectOf, cellOf, cellRect, if_false]
        exact Nat.mul_le_mul_right H hdiv
  · exact runAdds_past_capacity W H P N br hP hN hW hH

/-- Counterexample to claim C1 as stated: with `N = 1` image, `P = 2` per
axis and 2x2 cells (row-major), the claimed capacity `ceil(1/2) * 2 = 2`
does not hold: the allocated canvas holds exactly 1 cell, and already the
second `add_result` raises instead of landing in a second cell. -/
theorem montage_capacity_counterexample :
    ((results_montage.make (2, 2) 2 1 true).montageRows / 2) *
        ((results_montage.make (2, 2) 2 1 true).montageCols / 2) = 1 ∧
    ceilDiv 1 2 * 2 = 2 ∧
    runRects (results_montage.make (2, 2) 2 1 true) 2 = none := by
  decide

/-- Witness for the amended C1: cell size 2x2, `P = 2`, `N = 3`,
row-major, up to 10 requested placements. -/
theorem montage_capacity_cells_disjoint_witness :
    ((results_montage.make (2, 2) 2 3 true).montageRows / 2) *
        ((results_montage.make (2, 2) 2 3 true).montageCols / 2) =
      cellCapacity 2 3 ∧
    runRects (results_montage.make (2, 2) 2 3 true)
        (min 10 (cellCapacity 2 3)) =
      some ((List.range (min 10 (cellCapacity 2 3))).map (rectOf 2 2 2 true)) ∧
    ((List.range (min 10 (cellCapacity 2 3))).map
        (rectOf 2 2 2 true)).Pairwise
      (fun a b => a ≠ b ∧ a.DisjointPix b) :=
  montage_capacity_cells_disjoint 2 2 2 3 10 true (by decide) (by decide)
    (by decide) (by decide)

/-- Witness for C2, end-to-end scenario 1: 4 images, `P = 2`, row-major
-- the four placements occupy cells (0,0), (0,1), (1,0), (1,1) in input
order. -/
theorem add_result_places_in_grid_cell_witness :
    nthWriteRect (results_montage.make (2, 2) 2 4 true) 0 =
      some (cellRect 2 2 (cellOf 2 true 0).1 (cellOf 2 true 0).2) ∧
    nthWriteRect (results_montage.make (2, 2) 2 4 true) 1 =
      some (cellRect 2 2 (cellOf 2 true 1).1 (cellOf 2 true 1).2) ∧
    nthWriteRect (results_montage.make (2, 2) 2 4 true) 2 =
      some (cellRect 2 2 (cellOf 2 true 2).1 (cellOf 2 true 2).2) ∧
    nthWriteRect (results_montage.make (2, 2) 2 4 true) 3 =
      some (cellRect 2 2 (cellOf 2 true 3).1 (cellOf 2 true 3).2) ∧
    cellOf 2 true 0 = (0, 0) ∧ cellOf 2 true 1 = (0, 1) ∧
    cellOf 2 true 2 = (1, 0) ∧ cellOf 2 true 3 = (1, 1) :=
  ⟨add_result_places_in_grid_cell 2 2 2 4 true 0 (by decide) (by decide)
      (by decide) (by decide) (by decide),
   add_result_places_in_grid_cell 2 2 2 4 true 1 (by decide) (by decide)
      (by decide) (by decide) (by decide),
   add_result_places_in_grid_cell 2 2 2 4 true 2 (by decide) (by decide)
      (by decide) (by decide) (by decide),
   add_result_places_in_grid_cell 2 2 2 4 true 3 (by decide) (by decide)
      (by decide) (by decide) (by decide),
   by decide, by decide, by decide, by decide⟩

/-- Witness for C10: on the full 2x2-cell montage, the fifth placement
raises the broadcast error. -/
theorem add_result_cell_safety_witness :
    runAdds (results_montage.make (2, 2) 2 4 true) (cellCapacity 2 4 + 1) =
      Except.error "could not broadcast input array" :=
  (add_result_cell_safety 2 2 2 4 true (by decide) (by decide) (by decide)
    (by decide)).2
